import Mathlib

/-!
Verification development for the vscode-version-watcher repository.

The repository has two near-duplicate entry points: `src/index.ts` (report
only) and a second source file (here `src/unnamed/part_000`, the entry point
with severity banner, issue table and tweet delivery).  The definitions below
are shallow embeddings of the TypeScript functions of those files:

* `VSCode` embeds the `VSCode` record interface; optional string fields of
  TypeScript (`string|undefined`) become `Option String`, where `none` is
  JavaScript `undefined`.
* JavaScript truthiness of a `string|undefined` value (`undefined` and the
  empty string are falsy) is `strTruthy`.
* JavaScript string comparison `a > b` (code-unit lexicographic) is `jsGt`,
  and `v.split('.')` is `splitDot` on the character list of `v`.
* A computation that can raise a runtime `TypeError` (calling `.split` on
  `undefined`) is embedded as an `Option` result, `none` meaning the
  exception propagates and the run aborts.
-/

/-- Embeds the `VSCode` interface: release identifier plus three optional
dependent runtime versions. -/
structure VSCode where
  vscode : String
  electron : Option String
  node : Option String
  chrome : Option String
deriving DecidableEq

/-- JavaScript truthiness of a `string|undefined` value: `undefined` and the
empty string are falsy, every other string is truthy. -/
def strTruthy : Option String → Bool
  | none => false
  | some s => !s.data.isEmpty

/-- JavaScript truthiness of a possibly-undefined split component. -/
def compTruthy : Option (List Char) → Bool
  | none => false
  | some l => !l.isEmpty

/-- Lexicographic strict order on character lists: a proper prefix is
smaller, otherwise the first differing character decides.  This is the
order JavaScript uses for `<` and `>` on strings. -/
def lexLt : List Char → List Char → Bool
  | [], [] => false
  | [], _ :: _ => true
  | _ :: _, [] => false
  | a :: as, b :: bs => if a < b then true else if b < a then false else lexLt as bs

/-- JavaScript string comparison `a > b`. -/
def jsGt (a b : List Char) : Bool := lexLt b a

/-- Embeds JavaScript `v.split('.')` on a character list: the list of
dot-free segments, empty segments included (`"".split('.')` is `[""]`). -/
def splitDot : List Char → List (List Char)
  | [] => [[]]
  | c :: cs =>
    if c = '.' then [] :: splitDot cs
    else
      match splitDot cs with
      | h :: t => (c :: h) :: t
      | [] => [[c]]

/-- `comp i v` embeds `v.split('.')[i]`: the `i`-th dot-separated component of
a version string, `none` when the index is out of range. -/
def comp (i : Nat) (v : String) : Option (List Char) := (splitDot v.data).get? i

/-- Embeds `v1[0] > v2[0]` on the split version strings (the component at
index 0 always exists, so the default `[]` is never used). -/
def firstGt (v1 v2 : String) : Bool :=
  jsGt ((comp 0 v1).getD []) ((comp 0 v2).getD [])

/-- Embeds `v1[1] && v2[1] && v1[1] > v2[1]` on the split version strings:
both second components must be truthy (present and nonempty), and the first
must compare greater. -/
def secondGt (v1 v2 : String) : Bool :=
  compTruthy (comp 1 v1) && compTruthy (comp 1 v2) &&
    jsGt ((comp 1 v1).getD []) ((comp 1 v2).getD [])

/-- Embeds the two-component change test of the classifier,
`ev1[0] > ev2[0] || ev1[1] && ev2[1] && ev1[1] > ev2[1]`, used for the
Electron and Node fields. -/
def verGt (v1 v2 : String) : Bool := firstGt v1 v2 || secondGt v1 v2

/-- Embeds the body of the guarded Warning block of `saveToFile`
(part_000 lines 198-216).  The Electron fields are known truthy from the
guard (the `as string` casts), but `list[0].node`, `list[1].node`,
`list[0].chrome` and `list[1].chrome` are split unchecked: if any of them is
`undefined` the block raises a `TypeError` (`none`).  Otherwise the pair is
changed when Electron or Node changes on the two-component test, or Chrome
changes on the first component only. -/
def changedGuarded (a b : VSCode) : Option Bool :=
  match a.node, b.node, a.chrome, b.chrome with
  | some na, some nb, some ca, some cb =>
      some (verGt (a.electron.getD "") (b.electron.getD "") ||
        verGt na nb || firstGt ca cb)
  | _, _, _, _ => none

/-- Embeds the body of the Notice block of `saveToFile` (part_000 lines
218-236): no truthiness guard at all, so `.split` is applied to all six
fields of the pair and any `undefined` field raises a `TypeError` (`none`). -/
def changedUnguarded (a b : VSCode) : Option Bool :=
  match a.electron, b.electron, a.node, b.node, a.chrome, b.chrome with
  | some ea, some eb, some na, some nb, some ca, some cb =>
      some (verGt ea eb || verGt na nb || firstGt ca cb)
  | _, _, _, _, _, _ => none

/-- Embeds the Warning step: the block of part_000 lines 198-216 runs only
under the guard `list[0].electron && list[1].electron` (truthiness); when the
guard fails the block is skipped and no warning is produced. -/
def warnStep (a b : VSCode) : Option Bool :=
  if strTruthy a.electron && strTruthy b.electron then changedGuarded a b
  else some false

/-- Embeds the `alertLevel` computation of part_000 `saveToFile` lines
195-237: `some 0` = no change, `some 1` = Notice, `some 2` = Warning,
`none` = a `TypeError` escaped and the whole run aborts.  Lists of fewer
than two entries skip both blocks and keep level 0; the Notice block runs
exactly when the list has a third entry and the Warning step left level 0. -/
def alertLevel : List VSCode → Option Nat
  | a :: b :: rest =>
    match warnStep a b with
    | none => none
    | some true => some 2
    | some false =>
      match rest with
      | [] => some 0
      | c :: _ =>
        match changedUnguarded b c with
        | none => none
        | some true => some 1
        | some false => some 0
  | _ => some 0

/-- Embeds `version.electron || 'n/a'` in the table rendering: a falsy field
renders as the literal token `n/a`. -/
def renderCell : Option String → String
  | none => "n/a"
  | some s => if s.data.isEmpty then "n/a" else s

/-- Embeds one markdown table row of the report (part_000 lines 261-264). -/
def renderRow (v : VSCode) : String :=
  "\n| " ++ v.vscode ++ " | " ++ renderCell v.electron ++ " | " ++
    renderCell v.node ++ " | " ++ renderCell v.chrome ++ " |"

/-- Embeds the full markdown table of the lineage. -/
def tableMd (list : List VSCode) : String :=
  "| VS Code | Electron | Node | Chrome |\n|:-------:|:--------:|:----:|:------:|" ++
    String.join (list.map renderRow)

example : verGt "2.0.0" "1.8.0" = true := by decide
example : verGt "1.0.0" "2.0.0" = false := by decide
example : verGt "2.1.0" "2.0.9" = true := by decide
example : firstGt "66.1" "66.0" = false := by decide
example : alertLevel [] = some 0 := by decide
example :
    alertLevel [⟨"Latest", some "2.0.0", none, some "66.0"⟩,
      ⟨"1.24.0", some "2.0.0", some "8.9.3", some "66.0"⟩] = none := by decide
example :
    alertLevel [⟨"Latest", some "2.1.0", some "8.9.3", some "66.0"⟩,
      ⟨"1.24.0", some "2.0.0", some "8.9.3", some "66.0"⟩] = some 2 := by decide
example : renderRow ⟨"Latest", some "2.0.0", none, some "66.0"⟩ =
    "\n| Latest | 2.0.0 | n/a | 66.0 |" := by decide

/-! ### Spec-side change predicates (written from the amended claim text) -/

/-- Amended-claim predicate for the shell-runtime and JS-runtime fields: the
first component of `v1` is lexicographically greater than that of `v2`, or
both second components are present and nonempty and the first entry's is
lexicographically greater. -/
def ChangedTwoComp (v1 v2 : String) : Prop :=
  lexLt ((comp 0 v2).getD []) ((comp 0 v1).getD []) = true ∨
    ∃ a b, comp 1 v1 = some a ∧ comp 1 v2 = some b ∧ a ≠ [] ∧ b ≠ [] ∧
      lexLt b a = true

/-- Amended-claim predicate for the browser-engine field: only the first
component is compared, again with strict lexicographic greater-than. -/
def ChangedFirstComp (v1 v2 : String) : Prop :=
  lexLt ((comp 0 v2).getD []) ((comp 0 v1).getD []) = true

lemma secondGt_eq_true_iff (v1 v2 : String) :
    secondGt v1 v2 = true ↔
      ∃ a b, comp 1 v1 = some a ∧ comp 1 v2 = some b ∧ a ≠ [] ∧ b ≠ [] ∧
        lexLt b a = true := by
  unfold secondGt jsGt
  cases h1 : comp 1 v1 with
  | none => simp [compTruthy]
  | some a =>
    cases h2 : comp 1 v2 with
    | none => simp [compTruthy]
    | some b =>
      simp [compTruthy, Bool.and_eq_true, List.isEmpty_iff, and_assoc]

/-- Claim C1 (corrected form): the classifier's change test for the
shell-runtime and JS-runtime fields holds exactly when the first component is
lexicographically greater, or both second components are present and the
first entry's second component is greater; the browser-engine field is
compared on its first component only; a pair whose components merely differ
without being greater does not count as changed. -/
theorem c1_amended :
    (∀ v1 v2 : String, verGt v1 v2 = true ↔ ChangedTwoComp v1 v2) ∧
    (∀ v1 v2 : String, firstGt v1 v2 = true ↔ ChangedFirstComp v1 v2) ∧
    (∀ r1 r2 e1 e2 n1 n2 c1 c2 : String,
      changedGuarded ⟨r1, some e1, some n1, some c1⟩ ⟨r2, some e2, some n2, some c2⟩ =
        some (verGt e1 e2 || verGt n1 n2 || firstGt c1 c2)) ∧
    (∀ r1 r2 e1 e2 n1 n2 c1 c2 : String,
      changedUnguarded ⟨r1, some e1, some n1, some c1⟩ ⟨r2, some e2, some n2, some c2⟩ =
        some (verGt e1 e2 || verGt n1 n2 || firstGt c1 c2)) := by
  refine ⟨?_, ?_, ?_, ?_⟩
  · intro v1 v2
    rw [verGt, Bool.or_eq_true, secondGt_eq_true_iff]
    simp [ChangedTwoComp, firstGt, jsGt]
  · intro v1 v2
    simp [ChangedFirstComp, firstGt, jsGt]
  · intro r1 r2 e1 e2 n1 n2 c1 c2; rfl
  · intro r1 r2 e1 e2 n1 n2 c1 c2; rfl

/-- Claim C1 is false as stated: in the lineage below the first dot-separated
components of the adjacent shell-runtime strings differ (`"1"` vs `"2"`), and
the browser-engine second components are both present and differ (`"1"` vs
`"0"`), yet the classifier reports no change at all (severity stays `0`),
because it tests with `>` rather than inequality and ignores the
browser-engine second component. -/
theorem c1_counterexample :
    alertLevel [⟨"Latest", some "1.0.0", some "8.0.0", some "66.1"⟩,
        ⟨"1.0.0", some "2.0.0", some "8.0.0", some "66.0"⟩] = some 0 ∧
    comp 0 "1.0.0" ≠ comp 0 "2.0.0" ∧
    comp 1 "66.1" = some ['1'] ∧ comp 1 "66.0" = some ['0'] ∧
    verGt "1.0.0" "2.0.0" = false ∧ firstGt "66.1" "66.0" = false := by
  decide

/-- Claim C2 (corrected form): severity characterisation of the classifier.
A lineage of fewer than two entries yields level 0; Warning (2) holds exactly
when the Warning step (which requires both of the first two entries to carry
a truthy shell-runtime) reports a change; Notice (1) holds exactly when the
lineage has a third entry, the Warning step reported no change, and the
unguarded comparison of entries 1 and 2 reports a change; a two-entry lineage
never yields Notice. -/
theorem c2_amended :
    (∀ l : List VSCode, l.length < 2 → alertLevel l = some 0) ∧
    (∀ a b : VSCode, ∀ rest : List VSCode,
      alertLevel (a :: b :: rest) = some 2 ↔ warnStep a b = some true) ∧
    (∀ a b c : VSCode, ∀ rest : List VSCode,
      alertLevel (a :: b :: c :: rest) = some 1 ↔
        warnStep a b = some false ∧ changedUnguarded b c = some true) ∧
    (∀ a b : VSCode, alertLevel [a, b] ≠ some 1) := by
  refine ⟨?_, ?_, ?_, ?_⟩
  · intro l h
    match l with
    | [] => rfl
    | [_] => rfl
    | _ :: _ :: _ => exact absurd h (by simp)
  · intro a b rest
    cases hw : warnStep a b with
    | none => simp [alertLevel, hw]
    | some w =>
      cases w with
      | true => simp [alertLevel, hw]
      | false =>
        cases rest with
        | nil => simp [alertLevel, hw]
        | cons c rest' =>
          cases hu : changedUnguarded b c with
          | none => simp [alertLevel, hw, hu]
          | some u => cases u <;> simp [alertLevel, hw, hu]
  · intro a b c rest
    cases hw : warnStep a b with
    | none => simp [alertLevel, hw]
    | some w =>
      cases w with
      | true => simp [alertLevel, hw]
      | false =>
        cases hu : changedUnguarded b c with
        | none => simp [alertLevel, hw, hu]
        | some u => cases u <;> simp [alertLevel, hw, hu]
  · intro a b
    cases hw : warnStep a b with
    | none => simp [alertLevel, hw]
    | some w => cases w <;> simp [alertLevel, hw]

/-- Witness for `c2_amended`: the empty lineage satisfies the length
hypothesis and is classified as severity 0. -/
theorem c2_amended_witness :
    ([] : List VSCode).length < 2 ∧ alertLevel [] = some 0 :=
  ⟨by decide, c2_amended.1 [] (by decide)⟩

/-- Claim C2 is false as stated: both browser-engine fields of the first two
entries are present and changed (`"67"` vs `"66"` on the first component,
changed even under the code's own greater-than test), so the claim demands
Warning, but because the shell-runtime field is absent the code skips the
whole first comparison block and reports severity 0. -/
theorem c2_counterexample :
    alertLevel [⟨"Latest", none, some "8.0.0", some "67.0"⟩,
        ⟨"1.24.0", none, some "8.0.0", some "66.0"⟩] = some 0 ∧
    firstGt "67.0" "66.0" = true := by
  decide

/-- Claim C3, evaluated at the failing input: a lineage whose head has an
absent JS-runtime field while both shell-runtime fields are present makes the
classifier call `.split` on `undefined` and raise a `TypeError` (`none`),
contradicting the claim that it completes without throwing; the rendering
half of the claim does hold: the absent field renders as `n/a`. -/
theorem c3_eval :
    alertLevel [⟨"Latest", some "2.0.0", none, some "66.0.3359.181"⟩,
        ⟨"1.24.0", some "2.0.0", some "8.9.3", some "66.0.3359.181"⟩] = none ∧
    renderRow ⟨"Latest", some "2.0.0", none, some "66.0.3359.181"⟩ =
      "\n| Latest | 2.0.0 | n/a | 66.0.3359.181 |" := by
  decide

/-- Claim C10: when either of the first two entries lacks a shell-runtime
version, the Warning block is skipped entirely, so no field of that pair can
produce Warning (a two-entry lineage yields severity 0); with a third entry
the Notice comparison of entries 1 and 2 is still attempted unconditionally
and alone determines the outcome (including its possible `TypeError`). -/
theorem c10_guard (a b : VSCode) (h : a.electron = none ∨ b.electron = none) :
    (∀ rest : List VSCode, alertLevel (a :: b :: rest) ≠ some 2) ∧
    alertLevel [a, b] = some 0 ∧
    (∀ c : VSCode, ∀ rest : List VSCode,
      (changedUnguarded b c = none → alertLevel (a :: b :: c :: rest) = none) ∧
      (changedUnguarded b c = some true → alertLevel (a :: b :: c :: rest) = some 1) ∧
      (changedUnguarded b c = some false → alertLevel (a :: b :: c :: rest) = some 0)) := by
  have hw : warnStep a b = some false := by
    rcases h with h | h <;> simp [warnStep, h, strTruthy]
  refine ⟨?_, ?_, ?_⟩
  · intro rest
    cases rest with
    | nil => simp [alertLevel, hw]
    | cons c rest' =>
      cases hu : changedUnguarded b c with
      | none => simp [alertLevel, hw, hu]
      | some u => cases u <;> simp [alertLevel, hw, hu]
  · simp [alertLevel, hw]
  · intro c rest
    refine ⟨fun hu => ?_, fun hu => ?_, fun hu => ?_⟩ <;> simp [alertLevel, hw, hu]

/-- Witness for `c10_guard`: a concrete two-entry lineage whose head lacks
the shell-runtime field is classified as severity 0. -/
theorem c10_guard_witness :
    alertLevel [⟨"Latest", none, some "8.0.0", some "66.0"⟩,
      ⟨"1.24.0", some "2.0.0", some "8.0.0", some "66.0"⟩] = some 0 :=
  (c10_guard _ _ (Or.inl rfl)).2.1

/-! ### Version Resolver, Lineage Builder, Report & Snapshot Writer, run -/

/-- The kinds of HTTP fetches the Version Resolver issues, with the string
interpolated into the request URI. -/
inductive Fetch where
  | manifest (release : String)
  | yarnrc (release : String)
  | chromeHeader (electronRef : String)
  | nodeContents (electronRef : String)
  | nodeHeader (sha : String)
deriving DecidableEq

/-- The external network, one field per upstream extraction: the value each
fetch-plus-pattern-match of the resolver would produce (`none` = the field or
match is absent). -/
structure Net where
  pkgElectron : String → Option String
  yarnrcTarget : String → Option String
  chromeMatch : String → Option String
  nodeShaOf : String → Option String
  nodeTriple : String → Option (String × String × String)

/-- JavaScript template-literal interpolation of a `string|undefined` value:
`undefined` prints as the literal text `undefined`. -/
def jsStr : Option String → String
  | none => "undefined"
  | some s => s

/-- Embeds `getElectron`: read `electronVersion` from the release manifest;
when falsy, fetch the `.yarnrc` of the release and take the `target "X"`
match, keeping the falsy manifest value when that match also fails.  Returns
the resolved value and the fetches issued. -/
def getElectron (net : Net) (v : String) : Option String × List Fetch :=
  let pkgE := net.pkgElectron v
  if strTruthy pkgE then (pkgE, [Fetch.manifest v])
  else
    match net.yarnrcTarget v with
    | some t => (some t, [Fetch.manifest v, Fetch.yarnrc v])
    | none => (pkgE, [Fetch.manifest v, Fetch.yarnrc v])

/-- Embeds `getChromeVersion`: unconditionally fetch
`electron/v<electronVersion>/.../chrome_version.h` (the electron argument is
interpolated into the URI even when `undefined`) and take the
`CHROME_VERSION_STRING "X"` match. -/
def getChromeVersion (net : Net) (ev : Option String) : Option String × List Fetch :=
  (net.chromeMatch (jsStr ev), [Fetch.chromeHeader (jsStr ev)])

/-- Embeds `getNodeVersion`: unconditionally fetch the vendored node
submodule metadata at `ref=v<electronVersion>`; when its `sha` is falsy
return `undefined`, otherwise fetch that sha's `node_version.h` and join the
three matched numeric components with dots (absent when any match fails). -/
def getNodeVersion (net : Net) (ev : Option String) : Option String × List Fetch :=
  match net.nodeShaOf (jsStr ev) with
  | none => (none, [Fetch.nodeContents (jsStr ev)])
  | some sha =>
    if sha.data.isEmpty then (none, [Fetch.nodeContents (jsStr ev)])
    else
      match net.nodeTriple sha with
      | some (x, y, z) =>
          (some (x ++ "." ++ y ++ "." ++ z),
            [Fetch.nodeContents (jsStr ev), Fetch.nodeHeader sha])
      | none => (none, [Fetch.nodeContents (jsStr ev), Fetch.nodeHeader sha])

/-- Embeds one iteration of the `getVersions` loop body (part_000 lines
175-187): resolve electron, then chrome, then node — the latter two are
called unconditionally with whatever `getElectron` returned — and build the
record, renaming the `master` sentinel to `Latest`.  Also returns the
fetches issued, in order. -/
def resolveRelease (net : Net) (v : String) : VSCode × List Fetch :=
  let er := getElectron net v
  let cr := getChromeVersion net er.1
  let nr := getNodeVersion net er.1
  (⟨if v = "master" then "Latest" else v, er.1, nr.1, cr.1⟩, er.2 ++ cr.2 ++ nr.2)

/-- Embeds the `getVersions` builder (part_000 lines 161-191) over an
explicit candidate list (the fetched tags, with the `master` sentinel
prepended by `fetchVSCodeVersion`): skip candidates whose identifier is
already among the cached `vscode` values, resolve the rest in order, and
prepend the fresh results to the full cached lineage. -/
def getVersions (net : Net) (candidates : List String) (cache : List VSCode) :
    List VSCode :=
  (candidates.filter (fun v => !(cache.map VSCode.vscode).contains v)).map
      (fun v => (resolveRelease net v).1) ++ cache

/-- Claim C4 (corrected form): when both the manifest field and the
`.yarnrc` match are absent, the shell-runtime field is recorded absent, but
steps 3 and 4 are NOT skipped: the browser-engine and JS-runtime fetches are
still issued, with the literal text `undefined` interpolated where the
shell-runtime version would appear in the URI. -/
theorem c4_amended (net : Net) (v : String)
    (h1 : net.pkgElectron v = none) (h2 : net.yarnrcTarget v = none) :
    (resolveRelease net v).1.electron = none ∧
    Fetch.chromeHeader "undefined" ∈ (resolveRelease net v).2 ∧
    Fetch.nodeContents "undefined" ∈ (resolveRelease net v).2 := by
  have he : getElectron net v = (none, [Fetch.manifest v, Fetch.yarnrc v]) := by
    simp [getElectron, h1, h2, strTruthy]
  refine ⟨?_, ?_, ?_⟩
  · simp [resolveRelease, he]
  · simp [resolveRelease, he, getChromeVersion, jsStr, List.mem_append]
  · simp only [resolveRelease, he, getChromeVersion, getNodeVersion, jsStr]
    cases hsha : net.nodeShaOf "undefined" with
    | none => simp
    | some sha =>
      by_cases hd : sha.data = []
      · simp [hd]
      · cases ht : net.nodeTriple sha with
        | none => simp [hd, ht]
        | some t => obtain ⟨x, y, z⟩ := t; simp [hd, ht]

/-- A concrete network on which every extraction misses. -/
def netW : Net := ⟨fun _ => none, fun _ => none, fun _ => none, fun _ => none, fun _ => none⟩

/-- Claim C4 is false as stated: on a network where both shell-runtime
extractions miss, the resolver records the field absent (first conjunct, the
part of the claim that holds) but the fetch trace nevertheless continues
past the two extraction fetches with the step-3 and step-4 fetches, both
interpolating the text `undefined` — further fetches ARE issued. -/
theorem c4_counterexample :
    (resolveRelease netW "1.0.0").1.electron = none ∧
    (resolveRelease netW "1.0.0").2 =
      [Fetch.manifest "1.0.0", Fetch.yarnrc "1.0.0",
        Fetch.chromeHeader "undefined", Fetch.nodeContents "undefined"] := by
  decide

/-- Witness for `c4_amended`, at the all-missing network and release
`1.0.0`. -/
theorem c4_amended_witness :
    (resolveRelease netW "1.0.0").1.electron = none ∧
    Fetch.chromeHeader "undefined" ∈ (resolveRelease netW "1.0.0").2 ∧
    Fetch.nodeContents "undefined" ∈ (resolveRelease netW "1.0.0").2 :=
  c4_amended netW "1.0.0" rfl rfl

/-- Claim C6: when every candidate release identifier is already among the
cached `vscode` values (no new candidates), the builder resolves nothing and
returns the cached lineage unchanged, in the same order. -/
theorem c6_idempotent (net : Net) (candidates : List String) (cache : List VSCode)
    (h : ∀ c ∈ candidates, c ∈ cache.map VSCode.vscode) :
    getVersions net candidates cache = cache := by
  unfold getVersions
  suffices h2 : candidates.filter (fun v => !(cache.map VSCode.vscode).contains v) = [] by
    rw [h2]; rfl
  induction candidates with
  | nil => rfl
  | cons c cs ih =>
    have hc : (cache.map VSCode.vscode).contains c = true := by
      exact List.elem_iff.mpr (h c (List.mem_cons_self c cs))
    rw [List.filter_cons]
    simp only [hc, Bool.not_true, if_neg]
    exact ih fun x hx => h x (List.mem_cons_of_mem _ hx)

/-- A one-entry cached lineage whose release is also the only candidate. -/
def cacheW : List VSCode := [⟨"1.0.0", some "2.0.0", some "8.9.3", some "66.0"⟩]

/-- Witness for `c6_idempotent`: the single candidate `1.0.0` is cached, so
the builder returns the cache unchanged. -/
theorem c6_idempotent_witness : getVersions netW ["1.0.0"] cacheW = cacheW :=
  c6_idempotent netW ["1.0.0"] cacheW (by decide)

/-! ### Report & Snapshot Writer and the run pipeline (part_000) -/

/-- The fixed report header of part_000 `saveToFile` line 194. -/
def mdHeader : String :=
  "# VSCode Version Watcher\n\nFollow on Twitter [@VscodeW](https://twitter.com/VscodeW)!\n\n"

/-- The severity banner appended to the report, keyed by alert level
(part_000 lines 239-255). -/
def bannerMd : Nat → String
  | 0 => "```diff\n++ No change in recent release. ++\n```\n\n"
  | 1 => "```diff\n@@ Notice: Change in current release. @@\n```\n\n"
  | 2 => "```diff\n-- Warning! Change in the next release. --\n```\n\n"
  | _ => ""

/-- The severity fragment appended to the tweet accumulator, keyed by alert
level (part_000 lines 239-255). -/
def bannerTweet : Nat → String
  | 0 => "No change in recent release. "
  | 1 => "Notice: Change in current release. "
  | 2 => "Warning! Change in the next release. "
  | _ => ""

/-- What part_000 `saveToFile` produces when it completes: the README text,
the trimmed snapshot written to `version.json`, and the fragment it appended
to the tweet accumulator. -/
structure SaveOutput where
  readme : String
  snapshot : List VSCode
  tweetFrag : String
deriving DecidableEq

/-- Embeds part_000 `saveToFile` (lines 193-270).  `now` is the formatted
timestamp, `issuesMd` the issue table returned by `getIssues`, and
`issueTweetFrag` the fragment `getIssues` appends to the tweet.  When the
classifier raises (`alertLevel` is `none`) the exception propagates and
nothing is written (`none`).  Otherwise the README is header, banner,
timestamp line, lineage table and issue table, the snapshot is the lineage
with its head `shift()`ed off, and the tweet fragment is the severity text
followed by the issue-count text. -/
def saveToFile (now issuesMd issueTweetFrag : String) (list : List VSCode) :
    Option SaveOutput :=
  match alertLevel list with
  | none => none
  | some lvl =>
    some { readme := mdHeader ++ bannerMd lvl ++ "Last update: " ++ now ++
             "GMT\n\n" ++ tableMd list ++ issuesMd
         , snapshot := list.drop 1
         , tweetFrag := bannerTweet lvl ++ issueTweetFrag }

/-- Claim C5: whenever part_000 `saveToFile` completes on a lineage of at
least one entry, the persisted snapshot is exactly the lineage with its head
removed: it has N-1 entries and keeps the remaining entries in order (entry
`i` of the snapshot is entry `i+1` of the input). -/
theorem c5_trim (now issuesMd issueTweetFrag : String) (list : List VSCode)
    (out : SaveOutput) (h : saveToFile now issuesMd issueTweetFrag list = some out)
    (hn : 1 ≤ list.length) :
    out.snapshot.length = list.length - 1 ∧ out.snapshot = list.drop 1 ∧
    ∀ i : Nat, out.snapshot.get? i = list.get? (i + 1) := by
  have hs : out.snapshot = list.drop 1 := by
    unfold saveToFile at h
    cases ha : alertLevel list with
    | none => rw [ha] at h; exact absurd h (by simp)
    | some lvl =>
      rw [ha] at h
      injection h with h'
      rw [← h']
  refine ⟨by rw [hs, List.length_drop], hs, fun i => ?_⟩
  rw [hs]
  cases list with
  | nil => rfl
  | cons a t => rfl

/-- A one-entry lineage for the `c5_trim` witness. -/
def listW5 : List VSCode := [⟨"1.30.0", some "2.0.0", some "8.9.3", some "66.0"⟩]

/-- The output `saveToFile` produces on `listW5`. -/
def outW5 : SaveOutput :=
  { readme := mdHeader ++ bannerMd 0 ++ "Last update: " ++ "t" ++ "GMT\n\n" ++
      tableMd listW5 ++ "i"
  , snapshot := []
  , tweetFrag := bannerTweet 0 ++ "f" }

set_option maxRecDepth 8192 in
/-- Witness for `c5_trim`: on a one-entry lineage the writer completes and
persists the empty snapshot. -/
theorem c5_trim_witness :
    outW5.snapshot.length = listW5.length - 1 ∧ outW5.snapshot = listW5.drop 1 :=
  ⟨(c5_trim "t" "i" "f" listW5 outW5 (by decide) (by decide)).1,
   (c5_trim "t" "i" "f" listW5 outW5 (by decide) (by decide)).2.1⟩

/-- Strip `pat` from the front of a character list, returning the remainder
when it is a prefix. -/
def stripPre : List Char → List Char → Option (List Char)
  | [], s => some s
  | _ :: _, [] => none
  | p :: ps, c :: cs => if p = c then stripPre ps cs else none

/-- First occurrence of `pat` inside a character list: `some (pre, post)`
with the input equal to `pre ++ pat ++ post` and no earlier occurrence. -/
def findSplit (pat : List Char) : List Char → Option (List Char × List Char)
  | [] =>
    match stripPre pat [] with
    | some rest => some ([], rest)
    | none => none
  | c :: cs =>
    match stripPre pat (c :: cs) with
    | some rest => some ([], rest)
    | none =>
      match findSplit pat cs with
      | some (pre, post) => some (c :: pre, post)
      | none => none

/-- Embeds the match `tweetEndpoint.match(/:\/\/(.*?):443(.*)/)` of
`postTweet` (part_000 line 279): the lazy groups make group 1 everything
between the first `://` and the first following `:443`, and group 2 the
rest. -/
def endpointMatch (s : String) : Option (String × String) :=
  match findSplit "://".data s.data with
  | none => none
  | some (_, rest) =>
    match findSplit ":443".data rest with
    | none => none
    | some (host, path) => some (⟨host⟩, ⟨path⟩)

/-- Embeds part_000 `postTweet` (lines 272-303): with no configured endpoint
it logs `No tweet endpoint found.` and returns without posting; with an
endpoint that fails the pattern it logs and returns without posting;
otherwise it POSTs the tweet body and logs the tweet and the published
message.  Result: the posted body (if any) and the log lines. -/
def postTweet (endpoint : Option String) (tweet : String) :
    Option String × List String :=
  match endpoint with
  | none => (none, ["No tweet endpoint found."])
  | some ep =>
    match endpointMatch ep with
    | none => (none, ["Tweet endpoint does not match the rule."])
    | some _ => (some tweet, ["Tweet: " ++ tweet, "Tweet published."])

/-- The tracking link part_000 `start` appends to the tweet (line 308). -/
def tweetUrl : String :=
  "https://github.com/Sneezry/vscode-version-watcher#vscode-version-watcher"

/-- The observable outcome of one run of part_000 `start` after the lineage
is resolved: report text, persisted snapshot, posted tweet body (if any) and
log lines of the notification step. -/
structure RunResult where
  readme : String
  snapshot : List VSCode
  posted : Option String
  logs : List String
deriving DecidableEq

/-- Embeds part_000 `start` (lines 305-311) from the resolved lineage on:
`saveToFile`, then the tweet accumulator is extended with the tracking link,
then `postTweet`.  A classifier `TypeError` aborts the run before anything
is written (`none`). -/
def runStart (now issuesMd issueTweetFrag : String) (endpoint : Option String)
    (list : List VSCode) : Option RunResult :=
  match saveToFile now issuesMd issueTweetFrag list with
  | none => none
  | some out =>
    let pr := postTweet endpoint ("#VSCodeWatcher " ++ out.tweetFrag ++ tweetUrl)
    some { readme := out.readme, snapshot := out.snapshot
         , posted := pr.1, logs := pr.2 }

/-- Claim C9: when the notification endpoint is absent and the run
completes, nothing is posted and the skip message `No tweet endpoint found.`
is logged, while the report text and the persisted snapshot are exactly what
a run with any configured endpoint produces. -/
theorem c9_skip (now issuesMd issueTweetFrag : String) (e : String)
    (list : List VSCode) (r : RunResult)
    (h : runStart now issuesMd issueTweetFrag none list = some r) :
    r.posted = none ∧ r.logs = ["No tweet endpoint found."] ∧
    (runStart now issuesMd issueTweetFrag (some e) list).map RunResult.readme =
      some r.readme ∧
    (runStart now issuesMd issueTweetFrag (some e) list).map RunResult.snapshot =
      some r.snapshot := by
  unfold runStart at h ⊢
  cases hs : saveToFile now issuesMd issueTweetFrag list with
  | none => rw [hs] at h; exact absurd h (by simp)
  | some out =>
    rw [hs] at h
    injection h with h'
    rw [← h']
    refine ⟨rfl, rfl, ?_, ?_⟩ <;> cases hp : postTweet (some e)
        ("#VSCodeWatcher " ++ out.tweetFrag ++ tweetUrl) <;> simp [hp]

/-- The run result on the empty lineage with no endpoint configured. -/
def runW9 : RunResult :=
  { readme := mdHeader ++ bannerMd 0 ++ "Last update: " ++ "t" ++ "GMT\n\n" ++
      tableMd [] ++ "i"
  , snapshot := []
  , posted := none
  , logs := ["No tweet endpoint found."] }

set_option maxRecDepth 8192 in
/-- Witness for `c9_skip`: a concrete endpoint-less run completes with no
post and the skip message logged. -/
theorem c9_skip_witness :
    runW9.posted = none ∧ runW9.logs = ["No tweet endpoint found."] :=
  ⟨(c9_skip "t" "i" "f" "x" [] runW9 (by decide)).1,
   (c9_skip "t" "i" "f" "x" [] runW9 (by decide)).2.1⟩

/-! ### Lineage Builder tag filter (fetchVSCodeVersion) -/

/-- Consume one literal `.` from the front of the remaining input. -/
def afterDot : List Char → Option (List Char)
  | c :: r => if c = '.' then some r else none
  | [] => none

/-- The final test of the matcher: all three digit runs nonempty and the
remainder after the third run empty or exactly `-insiders`. -/
def matchTail (l r1 r2 : List Char) : Bool :=
  !(l.takeWhile Char.isDigit).isEmpty &&
    !(r1.takeWhile Char.isDigit).isEmpty &&
    !(r2.takeWhile Char.isDigit).isEmpty &&
    (r2.dropWhile Char.isDigit == [] ||
      r2.dropWhile Char.isDigit == "-insiders".data)

/-- Second step of the matcher: the input after the second dot. -/
def matchStep2 (l r1 : List Char) : Option (List Char) → Bool
  | none => false
  | some r2 => matchTail l r1 r2

/-- First step of the matcher: the input after the first dot. -/
def matchStep1 (l : List Char) : Option (List Char) → Bool
  | none => false
  | some r1 => matchStep2 l r1 (afterDot (r1.dropWhile Char.isDigit))

/-- Deterministic matcher for the anchored regex
`^\d+\.\d+\.\d+(\-insiders)?$` of `fetchVSCodeVersion` (part_000 line 65):
a maximal nonempty digit run, a dot, a second run, a dot, a third run, then
either the end of the string or exactly the literal `-insiders`.  Because a
digit run can never contain `.` or `-`, greedy matching with backtracking
coincides with this maximal-munch matcher. -/
def matchCore (l : List Char) : Bool :=
  matchStep1 l (afterDot (l.dropWhile Char.isDigit))

/-- Embeds the tag filter `/^\d+\.\d+\.\d+(\-insiders)?$/.test(tag.name)`. -/
def isVersionTag (s : String) : Bool := matchCore s.data

/-- The claim's pattern, stated structurally: the string is three nonempty
all-digit runs separated by dots, followed by nothing or by the literal
`-insiders`. -/
def SpecTag (s : String) : Prop :=
  ∃ d1 d2 d3 t : List Char,
    d1 ≠ [] ∧ d2 ≠ [] ∧ d3 ≠ [] ∧
    (∀ c ∈ d1, c.isDigit = true) ∧ (∀ c ∈ d2, c.isDigit = true) ∧
    (∀ c ∈ d3, c.isDigit = true) ∧
    (t = [] ∨ t = "-insiders".data) ∧
    s.data = d1 ++ '.' :: (d2 ++ '.' :: (d3 ++ t))

lemma afterDot_eq_some (r r' : List Char) (h : afterDot r = some r') :
    r = '.' :: r' := by
  match r with
  | [] => exact absurd h (by simp [afterDot])
  | c :: rest =>
    by_cases hc : c = '.'
    · subst hc
      simp [afterDot] at h
      rw [h]
    · simp [afterDot, hc] at h

lemma mem_takeWhile_digit (l : List Char) :
    ∀ c ∈ l.takeWhile Char.isDigit, c.isDigit = true := by
  induction l with
  | nil => simp
  | cons a t ih =>
    rw [List.takeWhile_cons]
    by_cases h : Char.isDigit a
    · simp only [h, if_pos]
      intro c hc
      rcases List.mem_cons.mp hc with hc | hc
      · rw [hc]; exact h
      · exact ih c hc
    · simp [h]

lemma takeWhile_all_digits (d : List Char) (hd : ∀ c ∈ d, Char.isDigit c = true) :
    d.takeWhile Char.isDigit = d ∧ d.dropWhile Char.isDigit = [] := by
  induction d with
  | nil => exact ⟨rfl, rfl⟩
  | cons a t ih =>
    have ha : Char.isDigit a = true := hd a (List.mem_cons_self a t)
    have ih2 := ih fun c hc => hd c (List.mem_cons_of_mem _ hc)
    rw [List.takeWhile_cons, List.dropWhile_cons]
    simp [ha, ih2.1, ih2.2]

lemma takeWhile_digits_stop (d : List Char) (c : Char) (r : List Char)
    (hd : ∀ x ∈ d, Char.isDigit x = true) (hc : Char.isDigit c = false) :
    (d ++ c :: r).takeWhile Char.isDigit = d ∧
      (d ++ c :: r).dropWhile Char.isDigit = c :: r := by
  induction d with
  | nil =>
    rw [List.nil_append, List.takeWhile_cons, List.dropWhile_cons]
    simp [hc]
  | cons a t ih =>
    have ha : Char.isDigit a = true := hd a (List.mem_cons_self a t)
    have ih2 := ih fun x hx => hd x (List.mem_cons_of_mem _ hx)
    rw [List.cons_append, List.takeWhile_cons, List.dropWhile_cons]
    simp [ha, ih2.1, ih2.2]

lemma isEmpty_false_iff (l : List Char) : l.isEmpty = false ↔ l ≠ [] := by
  cases l <;> simp

lemma matchCore_iff (l : List Char) :
    matchCore l = true ↔
      ∃ d1 d2 d3 t : List Char,
        d1 ≠ [] ∧ d2 ≠ [] ∧ d3 ≠ [] ∧
        (∀ c ∈ d1, c.isDigit = true) ∧ (∀ c ∈ d2, c.isDigit = true) ∧
        (∀ c ∈ d3, c.isDigit = true) ∧
        (t = [] ∨ t = "-insiders".data) ∧
        l = d1 ++ '.' :: (d2 ++ '.' :: (d3 ++ t)) := by
  constructor
  · intro h
    unfold matchCore at h
    cases h0 : afterDot (l.dropWhile Char.isDigit) with
    | none => rw [h0] at h; exact absurd h (by simp [matchStep1])
    | some r1 =>
      rw [h0] at h
      simp only [matchStep1] at h
      cases h1 : afterDot (r1.dropWhile Char.isDigit) with
      | none => rw [h1] at h; exact absurd h (by simp [matchStep2])
      | some r2 =>
        rw [h1] at h
        simp only [matchStep2, matchTail, Bool.and_eq_true, Bool.not_eq_true',
          isEmpty_false_iff, Bool.or_eq_true, beq_iff_eq] at h
        obtain ⟨⟨⟨hne1, hne2⟩, hne3⟩, ht⟩ := h
        have e0 : l.dropWhile Char.isDigit = '.' :: r1 := afterDot_eq_some _ _ h0
        have e1 : r1.dropWhile Char.isDigit = '.' :: r2 := afterDot_eq_some _ _ h1
        refine ⟨l.takeWhile Char.isDigit, r1.takeWhile Char.isDigit,
          r2.takeWhile Char.isDigit, r2.dropWhile Char.isDigit,
          hne1, hne2, hne3, mem_takeWhile_digit l, mem_takeWhile_digit r1,
          mem_takeWhile_digit r2, ht, ?_⟩
        calc l = l.takeWhile Char.isDigit ++ l.dropWhile Char.isDigit :=
              (List.takeWhile_append_dropWhile Char.isDigit l).symm
        _ = l.takeWhile Char.isDigit ++ '.' :: r1 := by rw [e0]
        _ = l.takeWhile Char.isDigit ++ '.' ::
              (r1.takeWhile Char.isDigit ++ r1.dropWhile Char.isDigit) := by
              rw [List.takeWhile_append_dropWhile]
        _ = l.takeWhile Char.isDigit ++ '.' ::
              (r1.takeWhile Char.isDigit ++ '.' :: r2) := by rw [e1]
        _ = l.takeWhile Char.isDigit ++ '.' ::
              (r1.takeWhile Char.isDigit ++ '.' ::
                (r2.takeWhile Char.isDigit ++ r2.dropWhile Char.isDigit)) := by
              rw [List.takeWhile_append_dropWhile]
  · rintro ⟨d1, d2, d3, t, h1, h2, h3, hd1, hd2, hd3, ht, hl⟩
    have hdot : Char.isDigit '.' = false := by decide
    have s1 := takeWhile_digits_stop d1 '.' (d2 ++ '.' :: (d3 ++ t)) hd1 hdot
    have s2 := takeWhile_digits_stop d2 '.' (d3 ++ t) hd2 hdot
    have s3 : (d3 ++ t).takeWhile Char.isDigit = d3 ∧
        (d3 ++ t).dropWhile Char.isDigit = t := by
      rcases ht with ht | ht
      · subst ht
        rw [List.append_nil]
        exact takeWhile_all_digits d3 hd3
      · subst ht
        exact takeWhile_digits_stop d3 '-' "insiders".data hd3 (by decide)
    rw [hl]
    unfold matchCore
    rw [s1.2]
    have a1 : afterDot ('.' :: (d2 ++ '.' :: (d3 ++ t))) =
        some (d2 ++ '.' :: (d3 ++ t)) := by simp [afterDot]
    rw [a1]
    simp only [matchStep1]
    rw [s2.2]
    have a2 : afterDot ('.' :: (d3 ++ t)) = some (d3 ++ t) := by simp [afterDot]
    rw [a2]
    simp only [matchStep2, matchTail]
    rw [s1.1, s2.1, s3.1, s3.2]
    simp only [Bool.and_eq_true, Bool.not_eq_true', isEmpty_false_iff,
      Bool.or_eq_true, beq_iff_eq]
    exact ⟨⟨⟨h1, h2⟩, h3⟩, ht⟩

/-- Claim C7: the Lineage Builder's tag filter accepts a tag name exactly
when it matches `\d+\.\d+\.\d+` optionally suffixed `-insiders`, anchored at
both ends; `v1.0`, `1.0` and `abc` are rejected, while plain and `-insiders`
semantic versions are accepted. -/
theorem c7_filter :
    (∀ s : String, isVersionTag s = true ↔ SpecTag s) ∧
    isVersionTag "v1.0" = false ∧ isVersionTag "1.0" = false ∧
    isVersionTag "abc" = false ∧ isVersionTag "1.30.0" = true ∧
    isVersionTag "1.30.0-insiders" = true := by
  refine ⟨fun s => ?_, by decide, by decide, by decide, by decide, by decide⟩
  unfold isVersionTag SpecTag
  exact matchCore_iff s.data

/-! ### Paginated Fetcher (githubRequest) -/

/-- One HTTP response as the fetcher sees it: the decoded JSON body and the
`(uri, rel)` pairs parsed from the comma-split `link` header by the regex
`^\s*<(.*)>;\s*rel="(.*)"\s*$` (an absent header is the empty list). -/
structure Page where
  body : String
  linkAttrs : List (String × String)

/-- Embeds the `for`-loop of `githubRequest` (part_000 lines 42-50): scan
the link attributes in order and recurse into the first one whose relation
is `next`; attributes with other relations are skipped. -/
def nextUri (p : Page) : Option String :=
  (p.linkAttrs.find? fun a => a.2 == "next").map Prod.fst

/-- Embeds the recursive `githubRequest` (part_000 lines 32-55) against a
network `net` mapping each URI to its response.  The TypeScript recursion
has no fuel; here `fuel` bounds the recursion depth and `none` means the
fuel ran out before a page without a `next` link was reached (the source
would still be recursing).  A page with no `next` link yields its own body
as a singleton; otherwise the current body is prepended to the recursive
result. -/
def githubRequest (net : String → Page) : Nat → String → Option (List String)
  | 0, _ => none
  | fuel + 1, u =>
    match nextUri (net u) with
    | none => some [(net u).body]
    | some u' =>
      match githubRequest net fuel u' with
      | none => none
      | some rest => some ((net u).body :: rest)

/-- A finite chain of pages: `Chain net u us` says that following `next`
links from `u` visits exactly the URIs `us` (starting at `u`) and ends at a
page that carries no `next` link. -/
inductive Chain (net : String → Page) : String → List String → Prop
  | last (u : String) : nextUri (net u) = none → Chain net u [u]
  | step (u u' : String) (us : List String) : nextUri (net u) = some u' →
      Chain net u' us → Chain net u (u :: us)

lemma chain_getLast (net : String → Page) (u : String) (us : List String)
    (h : Chain net u us) :
    ∀ l, us.getLast? = some l → nextUri (net l) = none := by
  induction h with
  | last v hv =>
    intro l hl
    simp only [List.getLast?_singleton, Option.some.injEq] at hl
    rw [← hl]
    exact hv
  | step v v' vs hv hc ih =>
    intro l hl
    cases vs with
    | nil => cases hc
    | cons w ws =>
      rw [List.getLast?_cons_cons] at hl
      exact ih l hl

/-- Claim C8: for every finite chain of pages linked by `next` relations,
running the fetcher with fuel equal to the chain length returns all page
bodies concatenated in request order (the currently fetched page first), and
the chain's last page — exactly where the recursion stops — carries no
`next` link. -/
theorem c8_pagination (net : String → Page) (u : String) (us : List String)
    (h : Chain net u us) :
    githubRequest net us.length u = some (us.map fun v => (net v).body) ∧
    ∀ l, us.getLast? = some l → nextUri (net l) = none := by
  refine ⟨?_, chain_getLast net u us h⟩
  induction h with
  | last v hv => simp [githubRequest, hv]
  | step v v' vs hv hc ih => simp [githubRequest, hv, ih]

/-- A three-page network: `p1 → p2 → p3`, the last page without a `next`
link (its other attribute is a `prev` relation, which the loop skips). -/
def net3 : String → Page := fun u =>
  if u = "p1" then ⟨"b1", [("p2", "next")]⟩
  else if u = "p2" then ⟨"b2", [("p1", "prev"), ("p3", "next")]⟩
  else ⟨"b3", [("p2", "prev")]⟩

/-- Witness for `c8_pagination`: the three mock pages come back oldest
requested first. -/
theorem c8_pagination_witness :
    githubRequest net3 3 "p1" = some ["b1", "b2", "b3"] :=
  (c8_pagination net3 "p1" ["p1", "p2", "p3"]
    (Chain.step _ _ _ rfl (Chain.step _ _ _ rfl (Chain.last _ rfl)))).1
